import Mathlib

/-!
Verification of the silverbullet-icalendar plug (`src/icalendar.ts`).

The TypeScript source is shallowly embedded: each function of the source is
translated to an executable Lean definition over explicit state.  External
platform services (the SHA-256 digest of `crypto.subtle`, the `localDateString` of
the host library, and the `Date` parsing of JavaScript) are not repository code;
they enter the embedding as function parameters (`hash`, `lds`, `parse`),
with collision-freedom of SHA-256 stated as an injectivity hypothesis where
a claim needs it.  Timestamps are epoch milliseconds, modelled as `Int`.
-/

namespace ICal

/- ## Event normalisation (source: `fetchAndParseCalendar`, `sha256Hash`) -/

/-- The fields of a parsed `IcsEvent` that the embedding needs.
`startDate` is the string rendering of `icsEvent.start?.date` (a JS `Date`
interpolated into a template literal); `none` models an absent `start`. -/
structure IcsEvent where
  startDate : Option String
  uid : Option String
  summary : Option String
  description : Option String
  location : Option String
  endDate : Option String
  deriving Repr, DecidableEq

/-- The JavaScript `a || b` on an optional string: `a` when present and
non-empty (truthy), otherwise `b`. -/
def jsOrStr (a : Option String) (b : String) : String :=
  match a with
  | none => b
  | some s => if s = "" then b else s

/-- The `uniqueKey` template literal of `fetchAndParseCalendar`:
`${icsEvent.start?.date || ''}${icsEvent.uid || icsEvent.summary || ''}`. -/
def uniqueKey (e : IcsEvent) : String :=
  jsOrStr e.startDate ("") ++ jsOrStr e.uid (jsOrStr e.summary (""))

/-- The `ref` computed for an event: `sha256Hash(uniqueKey)`, with the
hex-encoded SHA-256 digest abstracted as the parameter `hash`. -/
def refOf (hash : String → String) (e : IcsEvent) : String :=
  hash (uniqueKey e)

/- ## Date normalisation (source: `convertDatesToStrings`, `isIcsDateObjects`) -/

/-- A JavaScript runtime value, as far as `convertDatesToStrings` can
distinguish them.  A `jsDate d` is a `Date` object (`d` identifies the
instant); `jsObj` keeps the fields in insertion order. -/
inductive JsValue where
  | jsNull
  | jsUndef
  | jsDate (d : Int)
  | jsStr (s : String)
  | jsNum (n : Int)
  | jsBool (b : Bool)
  | jsArr (items : List JsValue)
  | jsObj (fields : List (String × JsValue))
  deriving Repr

/-- String equality through the character list (JS `===` on strings). -/
def strEq (a b : String) : Bool :=
  a.data == b.data

/-- Property lookup on the field list of an object (first occurrence). -/
def lookupField (fs : List (String × JsValue)) (k : String) : Option JsValue :=
  (fs.find? (fun p => strEq p.1 k)).map (fun p => p.2)

/-- The prefix regex `/^\d{4}-\d{2}-\d{2}T\d{2}:\d{2}:\d{2}/` as a pattern
list: `D` stands for a digit, every other character is literal. -/
def isoPattern : List Char :=
  ['D', 'D', 'D', 'D', '-', 'D', 'D', '-', 'D', 'D', 'T',
   'D', 'D', ':', 'D', 'D', ':', 'D', 'D']

/-- Matches a pattern list against the front of a character list. -/
def matchesAt : List Char → List Char → Bool
  | [], _ => true
  | _ :: _, [] => false
  | p :: ps, c :: cs => (if p == 'D' then c.isDigit else p == c) && matchesAt ps cs

/-- Whether a string matches the ISO date-time prefix regex of the source. -/
def matchesIsoDateTime (s : String) : Bool :=
  matchesAt isoPattern s.data

mutual

/-- Translation of `convertDatesToStrings`, branch for branch from the source.  `lds` is the
external `localDateString`; `parse` is the JavaScript `new Date(string)`
(applied only to strings that match the ISO prefix pattern, exactly as in the
source).  The wrapper branch mirrors `isIcsDateObjects(obj) && obj.date
instanceof Date`: both a `date` and a `type` property exist and the `date`
property holds a `Date`. -/
def convertDatesToStrings (lds : Int → String) (parse : String → Int) : JsValue → JsValue
  | JsValue.jsNull => JsValue.jsNull
  | JsValue.jsUndef => JsValue.jsUndef
  | JsValue.jsDate d => JsValue.jsStr (lds d)
  | JsValue.jsStr s =>
    if matchesIsoDateTime s then JsValue.jsStr (lds (parse s)) else JsValue.jsStr s
  | JsValue.jsNum n => JsValue.jsNum n
  | JsValue.jsBool b => JsValue.jsBool b
  | JsValue.jsArr items => JsValue.jsArr (convertList lds parse items)
  | JsValue.jsObj fs =>
    match lookupField fs ("type"), lookupField fs ("date") with
    | some _, some (JsValue.jsDate d) => JsValue.jsStr (lds d)
    | _, _ => JsValue.jsObj (convertFields lds parse fs)

/-- Elementwise conversion of the items of an array (the `obj.map(...)` call). -/
def convertList (lds : Int → String) (parse : String → Int) : List JsValue → List JsValue
  | [] => []
  | v :: vs => convertDatesToStrings lds parse v :: convertList lds parse vs

/-- Keywise conversion of the fields of an object (the `for key in obj` loop). -/
def convertFields (lds : Int → String) (parse : String → Int) :
    List (String × JsValue) → List (String × JsValue)
  | [] => []
  | p :: rest => (p.1, convertDatesToStrings lds parse p.2) :: convertFields lds parse rest

end

/- ## Sources and host-store state (source: `Source`, `clientStore`, `index`) -/

/-- A validated calendar source (the output shape of `getSources`). -/
structure Source where
  url : String
  name : Option String
  username : Option String
  password : Option String
  watch : Option Bool
  watchInterval : Option Int
  deriving Repr, DecidableEq

/-- The plug configuration: `sources` as validated by `getSources`,
`cacheDuration` in seconds (`none` when unset). -/
structure PlugConfig where
  sources : List Source
  cacheDuration : Option Int
  deriving Repr

/-- A normalised event as far as the orchestrator handles it: the
orchestrator only aggregates and indexes events, never inspects them. -/
structure CalendarEvent where
  ref : String
  sourceName : Option String
  deriving Repr, DecidableEq

/-- The host state the sync engine reads and writes: the global
`icalendar:lastSync` clientStore entry, the per-source clientStore entries,
and the event set indexed under the `$icalendar` namespace. -/
structure Store where
  globalLastSync : Option Int
  sourceLastSync : List (String × Int)
  indexed : List CalendarEvent
  deriving Repr, DecidableEq

/-- The test `source.url.startsWith("file://")`, stated on the character lists. -/
def isFileUrl (s : Source) : Bool :=
  List.isPrefixOf ("file://".data) s.url.data

/-- JS truthiness of `source.watch` (an optional boolean). -/
def watchOn (s : Source) : Bool :=
  s.watch.getD false

/-- Translation of `getSourceCacheKey`: `icalendar:source:` followed by the SHA-256 of the
url.  The digest is modelled by the url itself (SHA-256 treated as
collision-free), which keeps the key injective in the url as intended. -/
def sourceKey (s : Source) : String :=
  "icalendar:source:" ++ s.url

/-- The `clientStore.get` read on the per-source timestamp map. -/
def lookupTS (m : List (String × Int)) (k : String) : Option Int :=
  (m.find? (fun p => strEq p.1 k)).map (fun p => p.2)

/-- The `clientStore.set` write on the per-source timestamp map. -/
def setTS (m : List (String × Int)) (k : String) (v : Int) : List (String × Int) :=
  (k, v) :: m.filter (fun p => !(strEq p.1 k))

/- ## Cache gate (source: `shouldSyncSource`, `updateSourceCache`) -/

/-- Translation of `shouldSyncSource`, branch for branch from the source.  A stored
timestamp participates in the `ts && (now - ts) < interval` guard through JS
truthiness, so a stored `0` counts as absent. -/
def shouldSyncSource (st : Store) (s : Source) (globalLastSync : Option Int)
    (globalCacheDuration : Int) (now : Int) : Bool :=
  if isFileUrl s && watchOn s then
    let watchIntervalMs := (s.watchInterval.getD 30) * 1000
    match lookupTS st.sourceLastSync (sourceKey s) with
    | some t => if t ≠ 0 ∧ now - t < watchIntervalMs then false else true
    | none => true
  else
    match globalLastSync with
    | some g => if g ≠ 0 ∧ now - g < globalCacheDuration then false else true
    | none => true

/-- Translation of `updateSourceCache`: record `now` for a watched `file://` source. -/
def updateSourceCache (now : Int) (s : Source) (m : List (String × Int)) :
    List (String × Int) :=
  if isFileUrl s && watchOn s then setTS m (sourceKey s) now else m

/- ## One sync pass (source: `syncCalendars`) -/

/-- The environment of one pass: the single `Date.now()` reading, the result
of `fetchAndParseCalendar` per source (`Except.error` models a thrown fetch
or parse error), and whether `index.indexObjects` succeeds. -/
structure SyncEnv where
  now : Int
  fetchResult : Source → Except String (List CalendarEvent)
  indexWriteOk : Bool

/-- What the per-source loop of `syncCalendars` accumulates. -/
structure LoopResult where
  sourceLastSync : List (String × Int)
  allEvents : List CalendarEvent
  successCount : Nat
  fetched : List String
  deriving Repr, DecidableEq

/-- The `for (const source of sources)` loop of `syncCalendars`: on success
append the events, update the per-source cache and count the success; on
failure only log.  Every iteration attempts a fetch (`fetched`). -/
def syncLoop (env : SyncEnv) : List Source → List (String × Int) → LoopResult
  | [], m => ⟨m, [], 0, []⟩
  | s :: rest, m =>
    match env.fetchResult s with
    | Except.ok evs =>
      let r := syncLoop env rest (updateSourceCache env.now s m)
      ⟨r.sourceLastSync, evs ++ r.allEvents, r.successCount + 1, s.url :: r.fetched⟩
    | Except.error _ =>
      let r := syncLoop env rest m
      ⟨r.sourceLastSync, r.allEvents, r.successCount, s.url :: r.fetched⟩

/-- The observable outcome of one `syncCalendars` call: whether the gates
were passed, whether user-visible notifications were shown
(`showNotification`), and the tallies of the loop. -/
structure SyncReport where
  ran : Bool
  notified : Bool
  successCount : Nat
  totalSources : Nat
  totalEvents : Nat
  fetched : List String
  deriving Repr, DecidableEq

/-- The report of a pass that stopped at a gate (empty config or fresh
cache): nothing fetched, nothing shown. -/
def noReport : SyncReport :=
  ⟨false, false, 0, 0, 0, []⟩

/-- The sources for which the gate check of `syncCalendars` says a sync is
due (`needsSync` is their nonemptiness, `watchedSourceTriggered` whether one
of them is a watched `file://` source). -/
def dueSources (env : SyncEnv) (cfg : PlugConfig) (st : Store) : List Source :=
  cfg.sources.filter (fun s =>
    shouldSyncSource st s st.globalLastSync ((cfg.cacheDuration.getD 21600) * 1000) env.now)

/-- The `showNotification` flag of `syncCalendars`:
`!watchedSourceTriggered || sources.length > 1`, where
`watchedSourceTriggered` says some due source is a watched `file://`
source. -/
def notifyFlag (env : SyncEnv) (cfg : PlugConfig) (st : Store) : Bool :=
  !((dueSources env cfg st).any (fun s => isFileUrl s && watchOn s))
    || decide (cfg.sources.length > 1)

/-- The part of `syncCalendars` after both gates have passed: run the
per-source loop over all sources, then write the whole aggregate to the
index and set the global timestamp.  When the index write throws, the outer
catch leaves index and global timestamp untouched, but the per-source
updates of the loop have already happened. -/
def syncRun (env : SyncEnv) (cfg : PlugConfig) (st : Store) : Store × SyncReport :=
  let r := syncLoop env cfg.sources st.sourceLastSync
  if env.indexWriteOk then
    (⟨some env.now, r.sourceLastSync, r.allEvents⟩,
     ⟨true, notifyFlag env cfg st, r.successCount, cfg.sources.length,
      r.allEvents.length, r.fetched⟩)
  else
    ({ st with sourceLastSync := r.sourceLastSync },
     ⟨true, notifyFlag env cfg st, r.successCount, cfg.sources.length,
      r.allEvents.length, r.fetched⟩)

/-- Translation of `syncCalendars`, step for step from the source: load config and sources,
gate on emptiness and on freshness, then run the pass (`syncRun`). -/
def syncCalendars (env : SyncEnv) (cfg : PlugConfig) (st : Store) : Store × SyncReport :=
  if cfg.sources.isEmpty then (st, noReport)
  else if (dueSources env cfg st).isEmpty then (st, noReport)
  else syncRun env cfg st

/-- The events a source contributes to the aggregate: its parsed events on
success, nothing on failure. -/
def okEvents (env : SyncEnv) (s : Source) : List CalendarEvent :=
  match env.fetchResult s with
  | Except.ok evs => evs
  | Except.error _ => []

/-- Whether the fetch of a source succeeds in this environment. -/
def fetchOk (env : SyncEnv) (s : Source) : Bool :=
  match env.fetchResult s with
  | Except.ok _ => true
  | Except.error _ => false

/-- Ordered concatenation of the per-source event lists. -/
def concatEvents (f : Source → List CalendarEvent) : List Source → List CalendarEvent
  | [] => []
  | s :: rest => f s ++ concatEvents f rest

/- ## Clear cache (source: `clearCache`) -/

/-- The host state `clearCache` touches: the raw datastore entries (keys are
string arrays) and the global cache timestamp. -/
structure HostState where
  ds : List (List String × String)
  cacheTS : Option Int
  deriving Repr, DecidableEq

/-- Translation of `clearCache`, step for step from the source: abort on declined
confirmation; otherwise enumerate the `["ridx", "$icalendar", ...]` keys,
pair each with its `["idx", ...key.slice(2), "$icalendar"]` mirror, batch
delete when any were found, and clear the global timestamp. -/
def clearCache (confirm : Bool) (st : HostState) : HostState :=
  if !confirm then st
  else
    let fileName := "$icalendar"
    let pageKeys := st.ds.filter (fun p => List.isPrefixOf (["ridx", fileName]) p.1)
    let allKeys := pageKeys.foldr
      (fun p acc => p.1 :: ("idx" :: (p.1.drop 2 ++ [fileName])) :: acc) []
    let ds2 := if allKeys.isEmpty then st.ds
      else st.ds.filter (fun p => !(allKeys.contains p.1))
    ⟨ds2, none⟩

/- ## Helper lemmas -/

theorem strEq_iff (a b : String) : strEq a b = true ↔ a = b := by
  unfold strEq
  constructor
  · intro h
    exact String.ext (by simpa using h)
  · intro h
    subst h
    simp

theorem strEq_self (a : String) : strEq a a = true := by
  simp [strEq]

theorem strEq_false_of_ne (a b : String) (h : a ≠ b) : strEq a b = false := by
  rw [Bool.eq_false_iff]
  intro hc
  exact h ((strEq_iff a b).mp hc)

theorem find?_filter_ne (m : List (String × Int)) (k k2 : String) (h : k2 ≠ k) :
    (m.filter (fun p => !(strEq p.1 k))).find? (fun p => strEq p.1 k2)
      = m.find? (fun p => strEq p.1 k2) := by
  induction m with
  | nil => rfl
  | cons p rest ih =>
    by_cases hp : p.1 = k
    · have h1 : (!(strEq p.1 k)) = false := by simp [hp, strEq_self]
      have h2 : strEq p.1 k2 = false := strEq_false_of_ne _ _ (by rw [hp]; exact fun e => h e.symm)
      simp [List.filter_cons, h1, List.find?_cons, h2, ih]
    · have h1 : (!(strEq p.1 k)) = true := by simp [strEq_false_of_ne _ _ hp]
      by_cases hq : strEq p.1 k2 = true
      · simp [List.filter_cons, h1, List.find?_cons, hq]
      · simp only [Bool.not_eq_true] at hq
        simp [List.filter_cons, h1, List.find?_cons, hq, ih]

theorem lookupTS_setTS (m : List (String × Int)) (k k2 : String) (v : Int) :
    lookupTS (setTS m k v) k2 = if k2 = k then some v else lookupTS m k2 := by
  unfold lookupTS setTS
  by_cases h : k2 = k
  · subst h
    simp [List.find?_cons, strEq_self]
  · have hk : strEq k k2 = false := strEq_false_of_ne _ _ (fun e => h e.symm)
    rw [if_neg h]
    simp [List.find?_cons, hk, find?_filter_ne m k k2 h]

theorem syncLoop_allEvents (env : SyncEnv) (srcs : List Source) (m : List (String × Int)) :
    (syncLoop env srcs m).allEvents = concatEvents (okEvents env) srcs := by
  induction srcs generalizing m with
  | nil => rfl
  | cons s rest ih =>
    unfold syncLoop concatEvents
    cases h : env.fetchResult s with
    | ok evs => simp [h, ih, okEvents]
    | error e => simp [h, ih, okEvents]

theorem syncLoop_successCount (env : SyncEnv) (srcs : List Source) (m : List (String × Int)) :
    (syncLoop env srcs m).successCount = (srcs.filter (fetchOk env)).length := by
  induction srcs generalizing m with
  | nil => rfl
  | cons s rest ih =>
    unfold syncLoop
    cases h : env.fetchResult s with
    | ok evs => simp [List.filter_cons, fetchOk, h, ih]
    | error e => simp [List.filter_cons, fetchOk, h, ih]

theorem syncLoop_fetched (env : SyncEnv) (srcs : List Source) (m : List (String × Int)) :
    (syncLoop env srcs m).fetched = srcs.map (fun s => s.url) := by
  induction srcs generalizing m with
  | nil => rfl
  | cons s rest ih =>
    unfold syncLoop
    cases h : env.fetchResult s with
    | ok evs => simp [h, ih]
    | error e => simp [h, ih]

theorem lookupTS_update (now : Int) (s : Source) (m : List (String × Int)) (k : String) :
    lookupTS (updateSourceCache now s m) k = lookupTS m k
    ∨ lookupTS (updateSourceCache now s m) k = some now := by
  unfold updateSourceCache
  by_cases hw : (isFileUrl s && watchOn s) = true
  · rw [if_pos hw, lookupTS_setTS]
    by_cases hk : k = sourceKey s
    · right; rw [if_pos hk]
    · left; rw [if_neg hk]
  · left; rw [if_neg hw]

theorem syncLoop_lookup (env : SyncEnv) (srcs : List Source) (m : List (String × Int))
    (k : String) :
    lookupTS (syncLoop env srcs m).sourceLastSync k = lookupTS m k
    ∨ lookupTS (syncLoop env srcs m).sourceLastSync k = some env.now := by
  induction srcs generalizing m with
  | nil => left; rfl
  | cons s rest ih =>
    unfold syncLoop
    cases h : env.fetchResult s with
    | error e => simpa [h] using ih m
    | ok evs =>
      rcases ih (updateSourceCache env.now s m) with h2 | h2
      · rcases lookupTS_update env.now s m k with h3 | h3
        · left; simpa [h] using h2.trans h3
        · right; simpa [h] using h2.trans h3
      · right
        simpa [h] using h2

theorem syncLoop_writer (env : SyncEnv) (srcs : List Source) (m : List (String × Int))
    (k : String)
    (h : ∃ s ∈ srcs, fetchOk env s = true ∧ (isFileUrl s && watchOn s) = true
      ∧ sourceKey s = k) :
    lookupTS (syncLoop env srcs m).sourceLastSync k = some env.now := by
  induction srcs generalizing m with
  | nil =>
    rcases h with ⟨s, hs, _⟩
    cases hs
  | cons s rest ih =>
    rcases h with ⟨s2, hs2, hok, hwatch, hk⟩
    rcases List.mem_cons.mp hs2 with rfl | hmem
    · have hfr : ∃ evs, env.fetchResult s2 = Except.ok evs := by
        unfold fetchOk at hok
        cases hf : env.fetchResult s2 with
        | ok evs => exact ⟨evs, rfl⟩
        | error e => rw [hf] at hok; cases hok
      rcases hfr with ⟨evs, hfr⟩
      unfold syncLoop
      rw [hfr]
      have hm2 : lookupTS (updateSourceCache env.now s2 m) k = some env.now := by
        unfold updateSourceCache
        rw [if_pos hwatch, ← hk, lookupTS_setTS, if_pos rfl]
      rcases syncLoop_lookup env rest (updateSourceCache env.now s2 m) k with h2 | h2
      · simpa [hm2] using h2
      · simpa using h2
    · unfold syncLoop
      cases hfr : env.fetchResult s with
      | ok evs => simpa using ih (updateSourceCache env.now s m) ⟨s2, hmem, hok, hwatch, hk⟩
      | error e => simpa using ih m ⟨s2, hmem, hok, hwatch, hk⟩

theorem concatEvents_append (f : Source → List CalendarEvent) (a b : List Source) :
    concatEvents f (a ++ b) = concatEvents f a ++ concatEvents f b := by
  induction a with
  | nil => rfl
  | cons s rest ih => simp [concatEvents, ih]

theorem concatEvents_nil_of (f : Source → List CalendarEvent) (l : List Source)
    (h : ∀ s ∈ l, f s = []) : concatEvents f l = [] := by
  induction l with
  | nil => rfl
  | cons s rest ih =>
    unfold concatEvents
    rw [h s (by simp), ih (fun s2 hs2 => h s2 (by simp [hs2]))]
    rfl

theorem okEvents_eq_nil (env : SyncEnv) (s : Source) (h : fetchOk env s = false) :
    okEvents env s = [] := by
  unfold fetchOk at h
  unfold okEvents
  cases hf : env.fetchResult s with
  | ok evs => rw [hf] at h; cases h
  | error e => rfl

theorem syncCalendars_eq_run (env : SyncEnv) (cfg : PlugConfig) (st : Store)
    (hne : cfg.sources.isEmpty = false)
    (hdue : (dueSources env cfg st).isEmpty = false) :
    syncCalendars env cfg st = syncRun env cfg st := by
  unfold syncCalendars
  rw [if_neg (by simp [hne]), if_neg (by simp [hdue])]

theorem syncCalendars_noop (env : SyncEnv) (cfg : PlugConfig) (st : Store)
    (hdue : (dueSources env cfg st).isEmpty = true) :
    syncCalendars env cfg st = (st, noReport) := by
  unfold syncCalendars
  by_cases he : cfg.sources.isEmpty = true
  · rw [if_pos he]
  · rw [if_neg he, if_pos hdue]

/-- Appending a fixed string on the right is cancellable. -/
theorem str_append_cancel_right (a b c : String) (h : a ++ c = b ++ c) : a = b := by
  apply String.ext
  have hd : a.data ++ c.data = b.data ++ c.data := by
    have h2 := congrArg String.data h
    simpa [String.data_append] using h2
  exact List.append_cancel_right hd

/-- With an empty fallback, `jsOrStr` is `getD`. -/
theorem jsOrStr_empty (a : Option String) : jsOrStr a ("") = a.getD ("") := by
  cases a with
  | none => rfl
  | some s =>
    by_cases h : s = "" <;> simp [jsOrStr, h]

/-- The key the source hashes, written out from the words of the claim: the raw
start-date value (empty when absent), then the UID if present and non-empty,
else the summary if present, else the empty string. -/
def claimKey (e : IcsEvent) : String :=
  e.startDate.getD ("") ++
    (match e.uid with
     | some u => if u = "" then e.summary.getD ("") else u
     | none => e.summary.getD (""))

/-- On a present non-empty string, `jsOrStr` keeps it. -/
theorem jsOrStr_some_ne (u : String) (b : String) (h : u ≠ "") :
    jsOrStr (some u) b = u := by
  simp [jsOrStr, h]

theorem uniqueKey_eq_claimKey (e : IcsEvent) : uniqueKey e = claimKey e := by
  simp only [uniqueKey, claimKey, jsOrStr_empty]
  cases h : e.uid with
  | none => simp [jsOrStr]
  | some u => simp [jsOrStr]

/- ## Claim theorems -/

/-- C5: the `ref` of every parsed event is the hex SHA-256 digest (the
abstract `hash`, injective on the inputs that occur when SHA-256 is
collision-free) of the raw start-date value concatenated with the UID if
present (non-empty), else the summary if present, else the empty string;
re-normalising an unchanged event therefore yields the identical `ref`, and
two events sharing a non-empty UID but differing in start value yield
distinct `ref`s. -/
theorem refOf_fingerprint_spec (hash : String → String)
    (hinj : Function.Injective hash) (e e₁ e₂ : IcsEvent) (u : String)
    (hu1 : e₁.uid = some u) (hu2 : e₂.uid = some u) (hu : u ≠ "")
    (hst : e₁.startDate.getD ("") ≠ e₂.startDate.getD ("")) :
    refOf hash e = hash (claimKey e) ∧ refOf hash e₁ ≠ refOf hash e₂ := by
  constructor
  · unfold refOf
    rw [uniqueKey_eq_claimKey]
  · intro heq
    have hkey : uniqueKey e₁ = uniqueKey e₂ := hinj heq
    unfold uniqueKey at hkey
    rw [hu1, hu2] at hkey
    simp only [jsOrStr_empty] at hkey
    rw [jsOrStr_some_ne u _ hu, jsOrStr_some_ne u _ hu] at hkey
    exact hst (str_append_cancel_right _ _ _ hkey)

theorem refOf_fingerprint_spec_witness :
    refOf (fun s => s) ⟨some ("2024A"), some ("u1"), some ("sum"), none, none, none⟩
        = (fun s : String => s)
          (claimKey ⟨some ("2024A"), some ("u1"), some ("sum"), none, none, none⟩)
      ∧ refOf (fun s => s) ⟨some ("2024A"), some ("u1"), some ("sum"), none, none, none⟩
        ≠ refOf (fun s => s) ⟨some ("2024B"), some ("u1"), none, none, none, none⟩ :=
  refOf_fingerprint_spec (fun s => s) (fun _ _ h => h)
    ⟨some ("2024A"), some ("u1"), some ("sum"), none, none, none⟩
    ⟨some ("2024A"), some ("u1"), some ("sum"), none, none, none⟩
    ⟨some ("2024B"), some ("u1"), none, none, none, none⟩
    ("u1") rfl rfl (by decide) (by decide)

/-- C9: the `ref` fingerprint reads only the start-date value and the UID
when the UID is present and non-empty: events equal in those two fields get
the same `ref` whatever their summary, description, location or end. -/
theorem refOf_depends_only_start_uid (hash : String → String)
    (e₁ e₂ : IcsEvent) (u : String)
    (hu1 : e₁.uid = some u) (hu2 : e₂.uid = some u) (hu : u ≠ "")
    (hst : e₁.startDate = e₂.startDate) :
    refOf hash e₁ = refOf hash e₂ := by
  unfold refOf uniqueKey
  rw [hu1, hu2, hst]
  simp only [jsOrStr, hu, if_false]

theorem refOf_depends_only_start_uid_witness :
    refOf (fun s => s ++ s)
        ⟨some ("2024A"), some ("u1"), some ("sumX"), some ("descX"), some ("locX"), some ("endX")⟩
      = refOf (fun s => s ++ s)
        ⟨some ("2024A"), some ("u1"), some ("sumY"), some ("descY"), some ("locY"), some ("endY")⟩ :=
  refOf_depends_only_start_uid (fun s => s ++ s)
    ⟨some ("2024A"), some ("u1"), some ("sumX"), some ("descX"), some ("locX"), some ("endX")⟩
    ⟨some ("2024A"), some ("u1"), some ("sumY"), some ("descY"), some ("locY"), some ("endY")⟩
    ("u1") rfl rfl (by decide) rfl

/-- C8: declining the confirmation prompt makes `clearCache` return with the
host state untouched: no datastore entry is deleted and the global cache
timestamp keeps its value. -/
theorem clearCache_decline_noop (st : HostState) : clearCache false st = st := by
  rfl

/-- C3: the cache gate says a source is due exactly as specified: for a
watched `file://` source, when its individual last-sync timestamp is absent
or at least `watchInterval` (default 30 s) milliseconds old, independently
of the global timestamp and global duration; for every other source, when
the global last-sync timestamp is absent or at least the global cache
duration old.  Timestamps in the store are `Date.now()` readings, hence the
positivity hypotheses (a stored `0` would be JS-falsy). -/
theorem shouldSyncSource_gate_spec (st : Store) (s : Source) (g : Option Int)
    (dms now : Int)
    (hpos : ∀ t, lookupTS st.sourceLastSync (sourceKey s) = some t → 0 < t)
    (hg : ∀ t, g = some t → 0 < t) :
    (shouldSyncSource st s g dms now = true ↔
      (if (isFileUrl s && watchOn s) = true then
        lookupTS st.sourceLastSync (sourceKey s) = none ∨
          ∃ t, lookupTS st.sourceLastSync (sourceKey s) = some t ∧
            (s.watchInterval.getD 30) * 1000 ≤ now - t
       else
        g = none ∨ ∃ t, g = some t ∧ dms ≤ now - t))
    ∧ ∀ g2 d2, (isFileUrl s && watchOn s) = true →
        shouldSyncSource st s g2 d2 now = shouldSyncSource st s g dms now := by
  constructor
  · unfold shouldSyncSource
    by_cases hc : (isFileUrl s && watchOn s) = true
    · rw [if_pos hc, if_pos hc]
      cases hls : lookupTS st.sourceLastSync (sourceKey s) with
      | none => simp
      | some t =>
        have ht : t ≠ 0 := Int.ne_of_gt (hpos t hls)
        simp [ht, not_lt]
    · rw [if_neg hc, if_neg hc]
      cases hgv : g with
      | none => simp
      | some t =>
        have ht : t ≠ 0 := Int.ne_of_gt (hg t hgv)
        simp [ht, not_lt]
  · intro g2 d2 hc
    unfold shouldSyncSource
    rw [if_pos hc, if_pos hc]

theorem shouldSyncSource_gate_spec_witness :
    shouldSyncSource ⟨none, [("icalendar:source:file://w", 100)], []⟩
      ⟨"file://w", none, none, none, some true, none⟩ (some 50) 1000 40000 = true := by
  have h := shouldSyncSource_gate_spec ⟨none, [("icalendar:source:file://w", 100)], []⟩
      ⟨"file://w", none, none, none, some true, none⟩ (some 50) 1000 40000
      (fun t ht => by
        have h2 : some (100 : Int) = some t := ht
        injection h2 with h3
        omega)
      (fun t ht => by
        have h2 : some (50 : Int) = some t := ht
        injection h2 with h3
        omega)
  refine h.1.mpr ?_
  have hc : (isFileUrl (⟨"file://w", none, none, none, some true, none⟩ : Source)
      && watchOn ⟨"file://w", none, none, none, some true, none⟩) = true := by decide
  rw [if_pos hc]
  right
  exact ⟨100, rfl, by norm_num⟩

/-- The branch test of `convertDatesToStrings` for date-wrapper objects:
`isIcsDateObjects(obj) && obj.date instanceof Date`. -/
def isDateWrapper (fs : List (String × JsValue)) : Bool :=
  (lookupField fs ("type")).isSome &&
    (match lookupField fs ("date") with
     | some (JsValue.jsDate _) => true
     | _ => false)

theorem convertList_eq_map (lds : Int → String) (parse : String → Int)
    (items : List JsValue) :
    convertList lds parse items = items.map (convertDatesToStrings lds parse) := by
  induction items with
  | nil => rfl
  | cons v vs ih => simp [convertList, ih]

theorem convertFields_eq_map (lds : Int → String) (parse : String → Int)
    (fs : List (String × JsValue)) :
    convertFields lds parse fs
      = fs.map (fun p => (p.1, convertDatesToStrings lds parse p.2)) := by
  induction fs with
  | nil => rfl
  | cons p rest ih => simp [convertFields, ih]

theorem conv_obj_not_wrapper (lds : Int → String) (parse : String → Int)
    (fs : List (String × JsValue)) (h : isDateWrapper fs = false) :
    convertDatesToStrings lds parse (JsValue.jsObj fs)
      = JsValue.jsObj (convertFields lds parse fs) := by
  unfold isDateWrapper at h
  unfold convertDatesToStrings
  cases ht : lookupField fs ("type") with
  | none => simp [ht]
  | some x =>
    cases hd : lookupField fs ("date") with
    | none => simp [ht, hd]
    | some v => cases v <;> simp_all [ht, hd]

/-- C7: `convertDatesToStrings` sends every `Date` to its local-date string,
every date-wrapper object (having `date` and `type` properties with the
`date` a `Date`) to the local-date string of that date, and every string
matching the ISO date-time prefix pattern to the local-date string of its
parse; every other scalar is returned unchanged, and arrays and
non-wrapper objects are rebuilt elementwise in order (keys intact) with the
conversion applied recursively. -/
theorem convertDatesToStrings_spec (lds : Int → String) (parse : String → Int) :
    (∀ d, convertDatesToStrings lds parse (JsValue.jsDate d) = JsValue.jsStr (lds d))
    ∧ (∀ fs d, (lookupField fs ("type")).isSome = true →
        lookupField fs ("date") = some (JsValue.jsDate d) →
        convertDatesToStrings lds parse (JsValue.jsObj fs) = JsValue.jsStr (lds d))
    ∧ (∀ s, matchesIsoDateTime s = true →
        convertDatesToStrings lds parse (JsValue.jsStr s) = JsValue.jsStr (lds (parse s)))
    ∧ (∀ s, matchesIsoDateTime s = false →
        convertDatesToStrings lds parse (JsValue.jsStr s) = JsValue.jsStr s)
    ∧ (∀ n, convertDatesToStrings lds parse (JsValue.jsNum n) = JsValue.jsNum n)
    ∧ (∀ b, convertDatesToStrings lds parse (JsValue.jsBool b) = JsValue.jsBool b)
    ∧ convertDatesToStrings lds parse JsValue.jsNull = JsValue.jsNull
    ∧ convertDatesToStrings lds parse JsValue.jsUndef = JsValue.jsUndef
    ∧ (∀ items, convertDatesToStrings lds parse (JsValue.jsArr items)
        = JsValue.jsArr (items.map (convertDatesToStrings lds parse)))
    ∧ (∀ fs, isDateWrapper fs = false →
        convertDatesToStrings lds parse (JsValue.jsObj fs)
          = JsValue.jsObj (fs.map (fun p => (p.1, convertDatesToStrings lds parse p.2)))) := by
  refine ⟨fun d => rfl, ?_, ?_, ?_, fun n => rfl, fun b => rfl, rfl, rfl, ?_, ?_⟩
  · intro fs d htype hdate
    obtain ⟨x, hx⟩ := Option.isSome_iff_exists.mp htype
    unfold convertDatesToStrings
    rw [hx, hdate]
  · intro s hs
    unfold convertDatesToStrings
    rw [if_pos hs]
  · intro s hs
    unfold convertDatesToStrings
    rw [if_neg (by simp [hs])]
  · intro items
    unfold convertDatesToStrings
    rw [convertList_eq_map]
  · intro fs h
    rw [conv_obj_not_wrapper lds parse fs h, convertFields_eq_map]

theorem convertDatesToStrings_spec_witness :
    convertDatesToStrings (fun _ => "LD") (fun _ => 0) (JsValue.jsDate 5)
        = JsValue.jsStr ("LD")
    ∧ convertDatesToStrings (fun _ => "LD") (fun _ => 0)
        (JsValue.jsObj [("date", JsValue.jsDate 3), ("type", JsValue.jsStr ("DATE-TIME"))])
        = JsValue.jsStr ("LD")
    ∧ convertDatesToStrings (fun _ => "LD") (fun _ => 0)
        (JsValue.jsStr ("2024-01-02T03:04:05")) = JsValue.jsStr ("LD")
    ∧ convertDatesToStrings (fun _ => "LD") (fun _ => 0) (JsValue.jsStr ("hello"))
        = JsValue.jsStr ("hello")
    ∧ convertDatesToStrings (fun _ => "LD") (fun _ => 0)
        (JsValue.jsObj [("a", JsValue.jsDate 2), ("b", JsValue.jsNum 4)])
        = JsValue.jsObj ([("a", JsValue.jsDate 2), ("b", JsValue.jsNum 4)].map
            (fun p => (p.1, convertDatesToStrings (fun _ => "LD") (fun _ => 0) p.2))) := by
  have h := convertDatesToStrings_spec (fun _ => "LD") (fun _ => 0)
  exact ⟨h.1 5,
    h.2.1 [("date", JsValue.jsDate 3), ("type", JsValue.jsStr ("DATE-TIME"))] 3 rfl rfl,
    h.2.2.1 ("2024-01-02T03:04:05") (by decide),
    h.2.2.2.1 ("hello") (by decide),
    h.2.2.2.2.2.2.2.2.2 [("a", JsValue.jsDate 2), ("b", JsValue.jsNum 4)] (by decide)⟩

/-- C1: in a due pass with a successful index write, a single failing source
among the configured ones is absorbed at the loop boundary: the pass
completes, the indexed set written at the end holds exactly the events of
the remaining sources in order, and `successCount` is one less than the
number of sources. -/
theorem sync_source_isolation (env : SyncEnv) (cfg : PlugConfig) (st : Store)
    (pre post : List Source) (bad : Source)
    (hsrc : cfg.sources = pre ++ bad :: post)
    (hok : ∀ s ∈ pre ++ post, fetchOk env s = true)
    (hbad : fetchOk env bad = false)
    (hdue : (dueSources env cfg st).isEmpty = false)
    (hw : env.indexWriteOk = true) :
    (syncCalendars env cfg st).1.indexed
        = concatEvents (okEvents env) pre ++ concatEvents (okEvents env) post
    ∧ (syncCalendars env cfg st).2.successCount + 1 = cfg.sources.length := by
  have hne : cfg.sources.isEmpty = false := by
    rw [hsrc]
    simp
  rw [syncCalendars_eq_run env cfg st hne hdue]
  unfold syncRun
  simp only [hw, if_true]
  constructor
  · show (syncLoop env cfg.sources st.sourceLastSync).allEvents = _
    rw [syncLoop_allEvents, hsrc, concatEvents_append]
    have hb : okEvents env bad = [] := okEvents_eq_nil env bad hbad
    simp [concatEvents, hb]
  · show (syncLoop env cfg.sources st.sourceLastSync).successCount + 1 = _
    rw [syncLoop_successCount, hsrc, List.filter_append, List.filter_cons]
    have h1 : List.filter (fetchOk env) pre = pre :=
      List.filter_eq_self.mpr (fun a ha => hok a (by simp [ha]))
    have h2 : List.filter (fetchOk env) post = post :=
      List.filter_eq_self.mpr (fun a ha => hok a (by simp [ha]))
    simp [h1, h2, hbad]
    omega

theorem sync_source_isolation_witness :
    (syncCalendars
        ⟨5000, fun s => if strEq s.url ("https://bad") then Except.error ("boom")
          else Except.ok [⟨s.url, s.name⟩], true⟩
        ⟨[⟨"https://a", none, none, none, none, none⟩,
          ⟨"https://bad", none, none, none, none, none⟩,
          ⟨"https://c", none, none, none, none, none⟩], none⟩
        ⟨none, [], []⟩).1.indexed
      = concatEvents
          (okEvents ⟨5000, fun s => if strEq s.url ("https://bad") then Except.error ("boom")
            else Except.ok [⟨s.url, s.name⟩], true⟩)
          [⟨"https://a", none, none, none, none, none⟩]
        ++ concatEvents
          (okEvents ⟨5000, fun s => if strEq s.url ("https://bad") then Except.error ("boom")
            else Except.ok [⟨s.url, s.name⟩], true⟩)
          [⟨"https://c", none, none, none, none, none⟩]
    ∧ (syncCalendars
        ⟨5000, fun s => if strEq s.url ("https://bad") then Except.error ("boom")
          else Except.ok [⟨s.url, s.name⟩], true⟩
        ⟨[⟨"https://a", none, none, none, none, none⟩,
          ⟨"https://bad", none, none, none, none, none⟩,
          ⟨"https://c", none, none, none, none, none⟩], none⟩
        ⟨none, [], []⟩).2.successCount + 1
      = ([⟨"https://a", none, none, none, none, none⟩,
          ⟨"https://bad", none, none, none, none, none⟩,
          ⟨"https://c", none, none, none, none, none⟩] : List Source).length :=
  sync_source_isolation
    ⟨5000, fun s => if strEq s.url ("https://bad") then Except.error ("boom")
      else Except.ok [⟨s.url, s.name⟩], true⟩
    ⟨[⟨"https://a", none, none, none, none, none⟩,
      ⟨"https://bad", none, none, none, none, none⟩,
      ⟨"https://c", none, none, none, none, none⟩], none⟩
    ⟨none, [], []⟩
    [⟨"https://a", none, none, none, none, none⟩]
    [⟨"https://c", none, none, none, none, none⟩]
    ⟨"https://bad", none, none, none, none, none⟩
    rfl (by decide) (by decide) (by decide) rfl

/-- C2 counterexample: with one due watched `file://` source, a successful
fetch and a failing index write, the per-source timestamp map has changed
when the pass ends — the claim that no per-source timestamp changes when
the final index write fails is false on the code. -/
theorem sync_timestamp_claim_cex :
    (⟨5000, fun _ => Except.ok [], false⟩ : SyncEnv).indexWriteOk = false
    ∧ (syncCalendars ⟨5000, fun _ => Except.ok [], false⟩
        ⟨[⟨"file://w", none, none, none, some true, none⟩], none⟩
        ⟨none, [], []⟩).1.sourceLastSync
      ≠ (⟨none, [], []⟩ : Store).sourceLastSync := by
  constructor
  · rfl
  · decide

/-- C2 amended: when the final index write fails, the global last-sync
timestamp and the indexed set are indeed unchanged, but each watched
`file://` source whose fetch succeeded has already had its individual
timestamp set to `now` during the loop. -/
theorem sync_timestamp_amended (env : SyncEnv) (cfg : PlugConfig) (st : Store)
    (hne : cfg.sources.isEmpty = false)
    (hdue : (dueSources env cfg st).isEmpty = false)
    (hw : env.indexWriteOk = false) :
    (syncCalendars env cfg st).1.globalLastSync = st.globalLastSync
    ∧ (syncCalendars env cfg st).1.indexed = st.indexed
    ∧ ∀ s ∈ cfg.sources, fetchOk env s = true → (isFileUrl s && watchOn s) = true →
        lookupTS (syncCalendars env cfg st).1.sourceLastSync (sourceKey s)
          = some env.now := by
  rw [syncCalendars_eq_run env cfg st hne hdue]
  unfold syncRun
  simp only [hw, Bool.false_eq_true, if_false]
  refine ⟨by trivial, by trivial, ?_⟩
  intro s hs hok hwatch
  exact syncLoop_writer env cfg.sources st.sourceLastSync (sourceKey s)
    ⟨s, hs, hok, hwatch, rfl⟩

theorem sync_timestamp_amended_witness :
    (syncCalendars ⟨5000, fun _ => Except.ok [], false⟩
        ⟨[⟨"file://w", none, none, none, some true, none⟩], none⟩
        ⟨some 9, [], [⟨"old", none⟩]⟩).1.globalLastSync
      = (⟨some 9, [], [⟨"old", none⟩]⟩ : Store).globalLastSync
    ∧ (syncCalendars ⟨5000, fun _ => Except.ok [], false⟩
        ⟨[⟨"file://w", none, none, none, some true, none⟩], none⟩
        ⟨some 9, [], [⟨"old", none⟩]⟩).1.indexed
      = (⟨some 9, [], [⟨"old", none⟩]⟩ : Store).indexed
    ∧ lookupTS (syncCalendars ⟨5000, fun _ => Except.ok [], false⟩
        ⟨[⟨"file://w", none, none, none, some true, none⟩], none⟩
        ⟨some 9, [], [⟨"old", none⟩]⟩).1.sourceLastSync
        (sourceKey ⟨"file://w", none, none, none, some true, none⟩)
      = some 5000 := by
  have h := sync_timestamp_amended ⟨5000, fun _ => Except.ok [], false⟩
    ⟨[⟨"file://w", none, none, none, some true, none⟩], none⟩
    ⟨some 9, [], [⟨"old", none⟩]⟩ (by decide) (by decide) rfl
  exact ⟨h.1, h.2.1,
    h.2.2 ⟨"file://w", none, none, none, some true, none⟩ (by decide) (by decide) (by decide)⟩

/-- C4: a pass in which no source is due is a no-op on all shared state
(state returned unchanged, report `noReport` with an empty fetch list); and
after a due pass with a successful index write over watch-free sources, a
second pass within the cache window is such a no-op. -/
theorem sync_noop_and_idempotent (env1 env2 : SyncEnv) (cfg : PlugConfig) (st : Store) :
    ((dueSources env1 cfg st).isEmpty = true → syncCalendars env1 cfg st = (st, noReport))
    ∧ ((dueSources env1 cfg st).isEmpty = false → cfg.sources.isEmpty = false →
        env1.indexWriteOk = true → 0 < env1.now →
        (∀ s ∈ cfg.sources, (isFileUrl s && watchOn s) = false) →
        env2.now - env1.now < (cfg.cacheDuration.getD 21600) * 1000 →
        syncCalendars env2 cfg (syncCalendars env1 cfg st).1
          = ((syncCalendars env1 cfg st).1, noReport)) := by
  constructor
  · exact syncCalendars_noop env1 cfg st
  · intro hdue hne hw hpos hnw hwin
    have hg : (syncCalendars env1 cfg st).1.globalLastSync = some env1.now := by
      rw [syncCalendars_eq_run env1 cfg st hne hdue]
      unfold syncRun
      simp [hw]
    apply syncCalendars_noop
    unfold dueSources
    rw [List.isEmpty_iff, List.filter_eq_nil_iff]
    intro s hs
    have hnws := hnw s hs
    rw [Bool.not_eq_true]
    unfold shouldSyncSource
    rw [if_neg (by simp [hnws]), hg]
    show (if env1.now ≠ 0 ∧ env2.now - env1.now < (cfg.cacheDuration.getD 21600) * 1000
      then false else true) = false
    rw [if_pos ⟨by omega, hwin⟩]

theorem sync_noop_and_idempotent_witness :
    syncCalendars ⟨5000, fun _ => Except.ok [], true⟩
        ⟨[⟨"https://a", none, none, none, none, none⟩], none⟩ ⟨some 4999, [], []⟩
      = (⟨some 4999, [], []⟩, noReport)
    ∧ syncCalendars ⟨6000, fun _ => Except.ok [], true⟩
        ⟨[⟨"https://a", none, none, none, none, none⟩], none⟩
        (syncCalendars ⟨5000, fun _ => Except.ok [], true⟩
          ⟨[⟨"https://a", none, none, none, none, none⟩], none⟩ ⟨none, [], []⟩).1
      = ((syncCalendars ⟨5000, fun _ => Except.ok [], true⟩
          ⟨[⟨"https://a", none, none, none, none, none⟩], none⟩ ⟨none, [], []⟩).1,
         noReport) :=
  ⟨(sync_noop_and_idempotent ⟨5000, fun _ => Except.ok [], true⟩
      ⟨6000, fun _ => Except.ok [], true⟩
      ⟨[⟨"https://a", none, none, none, none, none⟩], none⟩ ⟨some 4999, [], []⟩).1
      (by decide),
   (sync_noop_and_idempotent ⟨5000, fun _ => Except.ok [], true⟩
      ⟨6000, fun _ => Except.ok [], true⟩
      ⟨[⟨"https://a", none, none, none, none, none⟩], none⟩ ⟨none, [], []⟩).2
      (by decide) (by decide) rfl (by decide) (by decide) (by decide)⟩

/-- C6 counterexample: with exactly one configured source, a watched
`file://` source that is due, the code suppresses all notifications, while
the claim (which requires more than one configured source for suppression)
predicts they are shown — the claimed equivalence fails at this input. -/
theorem sync_notification_claim_cex :
    ¬ (((syncCalendars ⟨1000, fun _ => Except.ok [], true⟩
          ⟨[⟨"file://w", none, none, none, some true, none⟩], none⟩
          ⟨none, [], []⟩).2.notified = false) ↔
        ((((dueSources ⟨1000, fun _ => Except.ok [], true⟩
              ⟨[⟨"file://w", none, none, none, some true, none⟩], none⟩
              ⟨none, [], []⟩).any (fun s => isFileUrl s && watchOn s))
            && ((dueSources ⟨1000, fun _ => Except.ok [], true⟩
              ⟨[⟨"file://w", none, none, none, some true, none⟩], none⟩
              ⟨none, [], []⟩).all (fun s => isFileUrl s && watchOn s))) = true
          ∧ (⟨[⟨"file://w", none, none, none, some true, none⟩], none⟩
              : PlugConfig).sources.length > 1)) := by
  decide

/-- C6 amended: in a due pass, the syncing notice, the per-source failure
notices and the final summary are all gated by one flag, and that flag
suppresses them exactly when some due source is a watched `file://` source
and exactly one source is configured (with a single source, that source is
trivially the sole trigger). -/
theorem sync_notification_amended (env : SyncEnv) (cfg : PlugConfig) (st : Store)
    (hne : cfg.sources.isEmpty = false)
    (hdue : (dueSources env cfg st).isEmpty = false) :
    ((syncCalendars env cfg st).2.notified = false ↔
      ((dueSources env cfg st).any (fun s => isFileUrl s && watchOn s) = true
        ∧ cfg.sources.length = 1)) := by
  have hlen : cfg.sources.length ≠ 0 := by
    intro h0
    rw [List.length_eq_zero] at h0
    rw [h0] at hne
    simp at hne
  rw [syncCalendars_eq_run env cfg st hne hdue]
  have hnf : (syncRun env cfg st).2.notified = notifyFlag env cfg st := by
    unfold syncRun
    cases henv : env.indexWriteOk <;> simp [henv]
  rw [hnf]
  unfold notifyFlag
  constructor
  · intro h
    have h1 := (Bool.or_eq_false_iff.mp h).1
    have h2 := (Bool.or_eq_false_iff.mp h).2
    rw [Bool.not_eq_false'] at h1
    have h3 : ¬(cfg.sources.length > 1) := of_decide_eq_false h2
    exact ⟨h1, by omega⟩
  · rintro ⟨h1, h2⟩
    rw [h1]
    simp [h2]

theorem sync_notification_amended_witness :
    (syncCalendars ⟨1000, fun _ => Except.ok [], true⟩
        ⟨[⟨"file://w", none, none, none, some true, none⟩], none⟩
        ⟨none, [], []⟩).2.notified = false := by
  have h := sync_notification_amended ⟨1000, fun _ => Except.ok [], true⟩
    ⟨[⟨"file://w", none, none, none, some true, none⟩], none⟩
    ⟨none, [], []⟩ (by decide) (by decide)
  exact h.mpr ⟨by decide, by decide⟩

/-- C10: in a due pass where the fetch of every source fails and the index write
succeeds, the whole indexed set is replaced by the empty aggregate, the
global last-sync timestamp is still set to `now`, the pass reports zero
successes, and within the cache window the gate then reports every
non-watched source as fresh. -/
theorem sync_all_fail_wipes_index (env : SyncEnv) (cfg : PlugConfig) (st : Store)
    (hne : cfg.sources.isEmpty = false)
    (hdue : (dueSources env cfg st).isEmpty = false)
    (hfail : ∀ s ∈ cfg.sources, fetchOk env s = false)
    (hw : env.indexWriteOk = true) :
    (syncCalendars env cfg st).1.indexed = []
    ∧ (syncCalendars env cfg st).1.globalLastSync = some env.now
    ∧ (syncCalendars env cfg st).2.successCount = 0
    ∧ ∀ (s2 : Source) (now2 : Int), (isFileUrl s2 && watchOn s2) = false →
        0 < env.now → now2 - env.now < (cfg.cacheDuration.getD 21600) * 1000 →
        shouldSyncSource (syncCalendars env cfg st).1 s2
          ((syncCalendars env cfg st).1.globalLastSync)
          ((cfg.cacheDuration.getD 21600) * 1000) now2 = false := by
  rw [syncCalendars_eq_run env cfg st hne hdue]
  unfold syncRun
  simp only [hw, if_true]
  have hflt : cfg.sources.filter (fetchOk env) = [] :=
    List.filter_eq_nil_iff.mpr (fun a ha => by simp [hfail a ha])
  refine ⟨?_, by trivial, ?_, ?_⟩
  · show (syncLoop env cfg.sources st.sourceLastSync).allEvents = []
    rw [syncLoop_allEvents]
    exact concatEvents_nil_of _ _ (fun s hs => okEvents_eq_nil env s (hfail s hs))
  · show (syncLoop env cfg.sources st.sourceLastSync).successCount = 0
    rw [syncLoop_successCount, hflt]
    rfl
  · intro s2 now2 hnw hpos hwin
    unfold shouldSyncSource
    rw [if_neg (by simp [hnw])]
    show (if env.now ≠ 0 ∧ now2 - env.now < (cfg.cacheDuration.getD 21600) * 1000
      then false else true) = false
    rw [if_pos ⟨by omega, hwin⟩]

theorem sync_all_fail_wipes_index_witness :
    (syncCalendars ⟨5000, fun _ => Except.error ("down"), true⟩
        ⟨[⟨"https://a", none, none, none, none, none⟩,
          ⟨"https://b", none, none, none, none, none⟩], none⟩
        ⟨none, [], [⟨"old", none⟩]⟩).1.indexed = []
    ∧ (syncCalendars ⟨5000, fun _ => Except.error ("down"), true⟩
        ⟨[⟨"https://a", none, none, none, none, none⟩,
          ⟨"https://b", none, none, none, none, none⟩], none⟩
        ⟨none, [], [⟨"old", none⟩]⟩).1.globalLastSync = some 5000
    ∧ (syncCalendars ⟨5000, fun _ => Except.error ("down"), true⟩
        ⟨[⟨"https://a", none, none, none, none, none⟩,
          ⟨"https://b", none, none, none, none, none⟩], none⟩
        ⟨none, [], [⟨"old", none⟩]⟩).2.successCount = 0
    ∧ shouldSyncSource
        (syncCalendars ⟨5000, fun _ => Except.error ("down"), true⟩
          ⟨[⟨"https://a", none, none, none, none, none⟩,
            ⟨"https://b", none, none, none, none, none⟩], none⟩
          ⟨none, [], [⟨"old", none⟩]⟩).1
        ⟨"https://a", none, none, none, none, none⟩
        ((syncCalendars ⟨5000, fun _ => Except.error ("down"), true⟩
          ⟨[⟨"https://a", none, none, none, none, none⟩,
            ⟨"https://b", none, none, none, none, none⟩], none⟩
          ⟨none, [], [⟨"old", none⟩]⟩).1.globalLastSync)
        (((⟨[⟨"https://a", none, none, none, none, none⟩,
            ⟨"https://b", none, none, none, none, none⟩], none⟩
            : PlugConfig).cacheDuration.getD 21600) * 1000) 6000 = false := by
  have h := sync_all_fail_wipes_index ⟨5000, fun _ => Except.error ("down"), true⟩
    ⟨[⟨"https://a", none, none, none, none, none⟩,
      ⟨"https://b", none, none, none, none, none⟩], none⟩
    ⟨none, [], [⟨"old", none⟩]⟩
    (by decide) (by decide) (by decide) rfl
  exact ⟨h.1, h.2.1, h.2.2.1,
    h.2.2.2 ⟨"https://a", none, none, none, none, none⟩ 6000 (by decide) (by decide) (by decide)⟩

end ICal
